import Mathlib

/-!
Verification of the caste hardware classifier (src/src/caste.cpp, src/src/caste.hpp).

The classifier is a pure decision table over a record of hardware facts.
We embed the C++ enums, the fact record and every helper of `classify_caste`
directly; byte quantities (C++ `uint64_t`, used only in comparisons) are
modelled as `Nat`, CPU counts (C++ `int`, used only in comparisons) as `Int`.
-/

/-- The five-valued output enum `Caste` from caste.hpp, declared in the order
`Mini, User, Developer, Workstation, Rig` (underlying values 0..4). -/
inductive Caste where
  | Mini
  | User
  | Developer
  | Workstation
  | Rig
deriving DecidableEq, Repr, Fintype

/-- The underlying C++ enum value of a `Caste` (`static_cast<int>`); the
declaration order gives 0..4. -/
def Caste.toNat : Caste → Nat
  | Caste.Mini => 0
  | Caste.User => 1
  | Caste.Developer => 2
  | Caste.Workstation => 3
  | Caste.Rig => 4

/-- The GPU memory-model enum `GpuKind` from caste.hpp. -/
inductive GpuKind where
  | None
  | Integrated
  | Unified
  | Discrete
deriving DecidableEq, Repr, Fintype

/-- The hardware-fact record `HwFacts` from caste.hpp, with the same
zero/false defaults. -/
structure HwFacts where
  ram_bytes : Nat := 0
  physical_cores : Int := 0
  logical_threads : Int := 0
  gpu_kind : GpuKind := GpuKind.None
  vram_bytes : Nat := 0
  has_discrete_gpu : Bool := false
  is_apple_silicon : Bool := false
  is_intel_arc : Bool := false
deriving Repr

/-- The result record `CasteResult` from caste.hpp. -/
structure CasteResult where
  caste : Caste := Caste.Mini
  reason : String := ""
deriving Repr

/-- `GiB(x)` from caste.cpp: `x * 1024 * 1024 * 1024`. -/
def GiB (x : Nat) : Nat := x * 1024 * 1024 * 1024

/-- `MiB(x)` from caste.cpp: `x * 1024 * 1024`. -/
def MiB (x : Nat) : Nat := x * 1024 * 1024

/-- `ram_user_floor_bytes()` from caste.cpp: 8 GiB minus 512 MiB. -/
def ram_user_floor_bytes : Nat := GiB 8 - MiB 512

/-- `min_caste` from caste.cpp: the smaller of two castes by enum value. -/
def min_caste (a b : Caste) : Caste :=
  if a.toNat < b.toNat then a else b

/-- `max_caste` from caste.cpp: the larger of two castes by enum value. -/
def max_caste (a b : Caste) : Caste :=
  if b.toNat < a.toNat then a else b

/-- `caste_from_vram` from caste.cpp: the VRAM tier of a discrete GPU. -/
def caste_from_vram (vram_bytes : Nat) : Caste :=
  if GiB 24 ≤ vram_bytes then Caste.Rig
  else if GiB 16 ≤ vram_bytes then Caste.Workstation
  else if GiB 6 ≤ vram_bytes then Caste.Developer
  else if GiB 2 ≤ vram_bytes then Caste.User
  else Caste.Mini

/-- `ram_cap` from caste.cpp: the ceiling a given amount of RAM allows. -/
def ram_cap (ram_bytes : Nat) : Caste :=
  if ram_bytes < ram_user_floor_bytes then Caste.Mini
  else if ram_bytes < GiB 16 then Caste.User
  else if ram_bytes < GiB 24 then Caste.User
  else if ram_bytes < GiB 32 then Caste.Developer
  else if ram_bytes < GiB 64 then Caste.Workstation
  else Caste.Rig

/-- `cpu_cap` from caste.cpp: gentle ceiling from CPU counts, preferring
physical cores; when physical is not positive it falls back to logical
threads with doubled thresholds; `Rig` means no cap. -/
def cpu_cap (physical_cores logical_threads : Int) : Caste :=
  let cores : Int := if 0 < physical_cores then physical_cores else 0
  let threads : Int := logical_threads
  if (0 < cores ∧ cores < 4) ∨ (cores = 0 ∧ 0 < threads ∧ threads < 8) then
    Caste.Mini
  else if (0 < cores ∧ cores < 6) ∨ (cores = 0 ∧ 0 < threads ∧ threads < 12) then
    Caste.User
  else
    Caste.Rig

/-- Step 1 of `classify_caste` in caste.cpp: the base caste from the
GPU/memory model (the `base` variable after the if/else-if chain). -/
def base_caste (hw : HwFacts) : Caste :=
  if hw.gpu_kind = GpuKind.Discrete ∨ hw.has_discrete_gpu = true then
    caste_from_vram hw.vram_bytes
  else if hw.is_apple_silicon = true ∨ hw.gpu_kind = GpuKind.Unified then
    if GiB 64 ≤ hw.ram_bytes then Caste.Rig
    else if GiB 32 ≤ hw.ram_bytes then Caste.Workstation
    else if GiB 24 ≤ hw.ram_bytes then Caste.Developer
    else Caste.User
  else if hw.gpu_kind = GpuKind.Integrated then
    Caste.User
  else
    Caste.User

/-- The reason string set alongside the base caste in step 1 of
`classify_caste`. -/
def base_reason (hw : HwFacts) : String :=
  if hw.gpu_kind = GpuKind.Discrete ∨ hw.has_discrete_gpu = true then
    "discrete GPU VRAM caste"
  else if hw.is_apple_silicon = true ∨ hw.gpu_kind = GpuKind.Unified then
    "unified memory (Apple Silicon) caste by RAM"
  else if hw.gpu_kind = GpuKind.Integrated then
    "integrated GPU caste"
  else
    "no discrete GPU detected"

/-- Step 2 of `classify_caste` in caste.cpp: the Intel Arc special-case,
applied to the base caste. -/
def arc_base (hw : HwFacts) (base : Caste) : Caste :=
  if hw.has_discrete_gpu = false ∧ hw.gpu_kind ≠ GpuKind.Discrete ∧
      hw.is_intel_arc = true then
    if GiB 16 ≤ hw.ram_bytes then max_caste base Caste.Developer else base
  else
    base

/-- The reason-string update of step 2 of `classify_caste`. -/
def arc_reason (hw : HwFacts) (reason : String) : String :=
  if hw.has_discrete_gpu = false ∧ hw.gpu_kind ≠ GpuKind.Discrete ∧
      hw.is_intel_arc = true then
    if GiB 16 ≤ hw.ram_bytes then
      reason ++ "; Arc-class iGPU with >=16GB RAM => Developer floor"
    else
      reason ++ "; Arc-class iGPU but <16GB RAM => no bump"
  else
    reason

/-- The reason suffixes appended at the end of `classify_caste` when the RAM
or CPU cap is below `Rig`. -/
def cap_reasons (reason : String) (cap_ram cap_cpu : Caste) : String :=
  let r1 := if cap_ram ≠ Caste.Rig then reason ++ "; RAM cap applied" else reason
  if cap_cpu ≠ Caste.Rig then r1 ++ "; CPU cap applied" else r1

/-- `classify_caste` from caste.cpp: absolute floor, base from GPU, Arc bump,
RAM cap, CPU cap, then User-floor restoration; the reason accumulates which
rules fired. -/
def classify_caste (hw : HwFacts) : CasteResult :=
  if hw.ram_bytes < ram_user_floor_bytes then
    { caste := Caste.Mini, reason := "RAM < ~7.5GB" }
  else
    { caste :=
        if ram_user_floor_bytes ≤ hw.ram_bytes then
          max_caste
            (min_caste
              (min_caste (arc_base hw (base_caste hw)) (ram_cap hw.ram_bytes))
              (cpu_cap hw.physical_cores hw.logical_threads))
            Caste.User
        else
          min_caste
            (min_caste (arc_base hw (base_caste hw)) (ram_cap hw.ram_bytes))
            (cpu_cap hw.physical_cores hw.logical_threads),
      reason :=
        cap_reasons (arc_reason hw (base_reason hw)) (ram_cap hw.ram_bytes)
          (cpu_cap hw.physical_cores hw.logical_threads) }

/-- `caste_name` from caste.cpp: the display name of each caste (the switch
covers all five members; the trailing `return "Unknown"` is unreachable). -/
def caste_name (t : Caste) : String :=
  match t with
  | Caste.Mini => "Mini"
  | Caste.User => "User"
  | Caste.Developer => "Developer"
  | Caste.Workstation => "Workstation"
  | Caste.Rig => "Rig"

/-! ### Concrete fact records used to witness the theorems (they mirror the
inputs of tests/test_classify.cpp) -/

/-- A discrete-GPU machine with 64 GiB RAM and ample CPU (vram left at 0,
set per use). -/
def hw_discrete_base : HwFacts :=
  { ram_bytes := GiB 64, physical_cores := 8, logical_threads := 16,
    gpu_kind := GpuKind.Discrete, has_discrete_gpu := true }

/-- The RAM-capped scenario: 16 GiB RAM but a 24 GiB-VRAM discrete GPU. -/
def hw_ram_capped : HwFacts :=
  { ram_bytes := GiB 16, physical_cores := 8, logical_threads := 16,
    gpu_kind := GpuKind.Discrete, vram_bytes := GiB 24,
    has_discrete_gpu := true }

/-- The Apple-Silicon scenario: 32 GiB unified memory. -/
def hw_unified : HwFacts :=
  { ram_bytes := GiB 32, physical_cores := 8, logical_threads := 16,
    gpu_kind := GpuKind.Unified, is_apple_silicon := true }

/-- The CPU-capped scenario: strong RAM/GPU but 2 cores / 4 threads. -/
def hw_cpu_capped : HwFacts :=
  { ram_bytes := GiB 64, physical_cores := 2, logical_threads := 4,
    gpu_kind := GpuKind.Discrete, vram_bytes := GiB 24,
    has_discrete_gpu := true }

/-- An Arc-class integrated GPU with exactly 16 GiB RAM. -/
def hw_arc_igpu : HwFacts :=
  { ram_bytes := GiB 16, physical_cores := 8, logical_threads := 16,
    gpu_kind := GpuKind.Integrated, is_intel_arc := true }

/-- An integrated-GPU machine with 16 GiB RAM (Arc flag left clear, set per
use). -/
def hw_integrated16 : HwFacts :=
  { ram_bytes := GiB 16, physical_cores := 8, logical_threads := 16,
    gpu_kind := GpuKind.Integrated }

/-- A garbage record: zero RAM, negative CPU counts, VRAM set although the
GPU kind is `None`, inconsistent `has_discrete_gpu`. -/
def hw_garbage : HwFacts :=
  { ram_bytes := 0, physical_cores := -3, logical_threads := -7,
    gpu_kind := GpuKind.None, vram_bytes := GiB 999,
    has_discrete_gpu := true, is_apple_silicon := false,
    is_intel_arc := true }

/-! ### Helper lemmas -/

/-- The caste field of `classify_caste` on the early-return floor branch. -/
theorem classify_caste_floor (hw : HwFacts)
    (h : hw.ram_bytes < ram_user_floor_bytes) :
    (classify_caste hw).caste = Caste.Mini := by
  unfold classify_caste
  rw [if_pos h]

/-- The caste field of `classify_caste` past the floor branch: the min/max
clamp pipeline of steps 1-5. -/
theorem classify_caste_main (hw : HwFacts)
    (h : ram_user_floor_bytes ≤ hw.ram_bytes) :
    (classify_caste hw).caste =
      max_caste
        (min_caste
          (min_caste (arc_base hw (base_caste hw)) (ram_cap hw.ram_bytes))
          (cpu_cap hw.physical_cores hw.logical_threads))
        Caste.User := by
  unfold classify_caste
  rw [if_neg (by omega), if_pos h]

theorem max_caste_user_ne_mini (c : Caste) :
    max_caste c Caste.User ≠ Caste.Mini := by
  cases c <;> decide

theorem min_caste_mono (a b c d : Caste) (h1 : a.toNat ≤ b.toNat)
    (h2 : c.toNat ≤ d.toNat) :
    (min_caste a c).toNat ≤ (min_caste b d).toNat := by
  revert h1 h2
  cases a <;> cases b <;> cases c <;> cases d <;> decide

theorem max_caste_mono (a b c d : Caste) (h1 : a.toNat ≤ b.toNat)
    (h2 : c.toNat ≤ d.toNat) :
    (max_caste a c).toNat ≤ (max_caste b d).toNat := by
  revert h1 h2
  cases a <;> cases b <;> cases c <;> cases d <;> decide

theorem min_min_le_middle (a b c : Caste) :
    (min_caste (min_caste a b) c).toNat ≤ b.toNat := by
  cases a <;> cases b <;> cases c <;> decide

theorem min_min_le_right (a b c : Caste) :
    (min_caste (min_caste a b) c).toNat ≤ c.toNat := by
  cases a <;> cases b <;> cases c <;> decide

theorem max_user_le_of_le (x y : Caste) (hx : x.toNat ≤ y.toNat)
    (hy : 1 ≤ y.toNat) : (max_caste x Caste.User).toNat ≤ y.toNat := by
  revert hx hy
  cases x <;> cases y <;> decide

theorem ram_cap_pos (r : Nat) (h : ram_user_floor_bytes ≤ r) :
    1 ≤ (ram_cap r).toNat := by
  unfold ram_cap
  split_ifs <;> first | decide | omega

theorem caste_from_vram_mono (v1 v2 : Nat) (h : v1 ≤ v2) :
    (caste_from_vram v1).toNat ≤ (caste_from_vram v2).toNat := by
  unfold caste_from_vram GiB
  split_ifs <;> first | decide | omega

/-- `arc_base` either leaves the base unchanged or bumps it to at least
`Developer`. -/
theorem arc_base_cases (hw : HwFacts) (b : Caste) :
    arc_base hw b = b ∨ arc_base hw b = max_caste b Caste.Developer := by
  unfold arc_base
  split_ifs <;> simp

theorem arc_base_mono (hw : HwFacts) (b1 b2 : Caste)
    (h : b1.toNat ≤ b2.toNat) :
    (arc_base hw b1).toNat ≤ (arc_base hw b2).toNat := by
  unfold arc_base
  split_ifs
  · exact max_caste_mono b1 b2 Caste.Developer Caste.Developer h (Nat.le_refl _)
  · exact h
  · exact h

/-- `arc_base` does nothing at or above `Developer`. -/
theorem arc_base_eq_of_dev_le (hw : HwFacts) (b : Caste)
    (h : 2 ≤ b.toNat) : arc_base hw b = b := by
  have hm : max_caste b Caste.Developer = b := by
    revert h; cases b <;> decide
  unfold arc_base
  split_ifs <;> simp [hm]

/-- `arc_base` does nothing when there is a discrete-GPU signal. -/
theorem arc_base_of_discrete (hw : HwFacts) (b : Caste)
    (h : hw.gpu_kind = GpuKind.Discrete ∨ hw.has_discrete_gpu = true) :
    arc_base hw b = b := by
  unfold arc_base
  rcases h with h | h
  · rw [if_neg]; simp [h]
  · rw [if_neg]; simp [h]

/-- Against a cap of at most `User`, a `Developer` base clamps the same way
as a `User` base. -/
theorem min_dev_eq_min_user (cr : Caste) (h : cr.toNat ≤ 1) :
    min_caste Caste.Developer cr = min_caste Caste.User cr := by
  revert h
  cases cr <;> decide

/-- `arc_base` ignores the VRAM field. -/
theorem arc_base_vram (hw : HwFacts) (v : Nat) (b : Caste) :
    arc_base { hw with vram_bytes := v } b = arc_base hw b := rfl

/-- `base_caste` is monotone in the VRAM field. -/
theorem base_caste_vram_mono (hw : HwFacts) (v1 v2 : Nat) (h : v1 ≤ v2) :
    (base_caste { hw with vram_bytes := v1 }).toNat ≤
    (base_caste { hw with vram_bytes := v2 }).toNat := by
  unfold base_caste
  dsimp only
  split_ifs <;> first | exact caste_from_vram_mono v1 v2 h | exact Nat.le_refl _

/-- Below 24 GiB of RAM and without a discrete-GPU signal, the base caste is
always `User`. -/
theorem base_caste_user_of_low_ram (hw : HwFacts)
    (hd : ¬(hw.gpu_kind = GpuKind.Discrete ∨ hw.has_discrete_gpu = true))
    (hr : hw.ram_bytes < GiB 24) : base_caste hw = Caste.User := by
  unfold base_caste
  rw [if_neg hd]
  split_ifs with h1 h2 h3 h4 <;> first | rfl | (exfalso; revert hr h2; unfold GiB; omega) | (exfalso; revert hr h3; unfold GiB; omega) | (exfalso; revert hr h4; unfold GiB; omega)

example : (classify_caste { ram_bytes := GiB 64, physical_cores := 8, logical_threads := 16, gpu_kind := GpuKind.Discrete, vram_bytes := GiB 2, has_discrete_gpu := true }).caste = Caste.User := by decide

example : (classify_caste { ram_bytes := GiB 64, physical_cores := 8, logical_threads := 16, gpu_kind := GpuKind.Discrete, vram_bytes := GiB 24, has_discrete_gpu := true }).caste = Caste.Rig := by decide

example : (classify_caste { ram_bytes := GiB 16, physical_cores := 8, logical_threads := 16, gpu_kind := GpuKind.Discrete, vram_bytes := GiB 24, has_discrete_gpu := true }).caste = Caste.User := by decide

example : (classify_caste { ram_bytes := GiB 32, physical_cores := 8, logical_threads := 16, gpu_kind := GpuKind.Unified, is_apple_silicon := true }).caste = Caste.Workstation := by decide

example : (classify_caste { ram_bytes := GiB 64, physical_cores := 2, logical_threads := 4, gpu_kind := GpuKind.Discrete, vram_bytes := GiB 24, has_discrete_gpu := true }).caste = Caste.User := by decide

example : (classify_caste {}).caste = Caste.Mini := by decide

/-! ### Claims -/

/-- C1: `classify_caste` returns `Mini` exactly when `ram_bytes` is below the
User floor of 8 GiB minus 512 MiB, which is 7.5 GiB exactly; at or above the
floor the result is never `Mini`, regardless of all other fields. -/
theorem claim_c1_mini_iff_below_floor (hw : HwFacts) :
    2 * ram_user_floor_bytes = 15 * GiB 1 ∧
    ((classify_caste hw).caste = Caste.Mini ↔
      hw.ram_bytes < ram_user_floor_bytes) := by
  refine ⟨by decide, ?_⟩
  by_cases h : hw.ram_bytes < ram_user_floor_bytes
  · rw [classify_caste_floor hw h]
    simp [h]
  · have h2 : ram_user_floor_bytes ≤ hw.ram_bytes := by omega
    rw [classify_caste_main hw h2]
    exact iff_of_false (max_caste_user_ne_mini _) h

/-- C1 witness: the theorem at a 4 GiB machine and at an 8 GiB machine. -/
theorem claim_c1_witness :
    (classify_caste { ram_bytes := GiB 4 }).caste = Caste.Mini ∧
    (classify_caste { ram_bytes := GiB 8 }).caste ≠ Caste.Mini :=
  ⟨(claim_c1_mini_iff_below_floor { ram_bytes := GiB 4 }).2.mpr (by decide),
   fun hmini =>
     absurd ((claim_c1_mini_iff_below_floor { ram_bytes := GiB 8 }).2.mp hmini)
       (by decide)⟩

/-- C2: with a discrete-GPU signal, 64 GiB RAM and an unconstraining CPU,
the result follows the VRAM tiers: 2 GiB VRAM gives `User`, 6 GiB gives
`Developer`, 16 GiB gives `Workstation`, 24 GiB gives `Rig`. -/
theorem claim_c2_vram_tiers (hw : HwFacts)
    (hg : hw.gpu_kind = GpuKind.Discrete ∨ hw.has_discrete_gpu = true)
    (hr : hw.ram_bytes = GiB 64)
    (hc : cpu_cap hw.physical_cores hw.logical_threads = Caste.Rig) :
    (hw.vram_bytes = GiB 2 → (classify_caste hw).caste = Caste.User) ∧
    (hw.vram_bytes = GiB 6 → (classify_caste hw).caste = Caste.Developer) ∧
    (hw.vram_bytes = GiB 16 → (classify_caste hw).caste = Caste.Workstation) ∧
    (hw.vram_bytes = GiB 24 → (classify_caste hw).caste = Caste.Rig) := by
  have h2 : ram_user_floor_bytes ≤ hw.ram_bytes := by rw [hr]; decide
  have hb : base_caste hw = caste_from_vram hw.vram_bytes := by
    unfold base_caste
    rw [if_pos hg]
  refine ⟨?_, ?_, ?_, ?_⟩ <;> intro hv <;>
    rw [classify_caste_main hw h2, arc_base_of_discrete hw _ hg, hb, hv, hr,
      hc] <;>
    decide

/-- C2 witness: the theorem at the 6 GiB-VRAM instance of the base test
machine. -/
theorem claim_c2_witness :
    (classify_caste { hw_discrete_base with vram_bytes := GiB 6 }).caste =
      Caste.Developer :=
  (claim_c2_vram_tiers { hw_discrete_base with vram_bytes := GiB 6 }
    (Or.inl rfl) rfl (by decide)).2.1 rfl

/-- C3: the final caste never exceeds the RAM ceiling computed by `ram_cap`;
in particular a discrete GPU with 24 GiB VRAM on a 16 GiB-RAM machine with
an unconstraining CPU classifies as `User`. -/
theorem claim_c3_ram_cap (hw : HwFacts) :
    (classify_caste hw).caste.toNat ≤ (ram_cap hw.ram_bytes).toNat ∧
    ((hw.gpu_kind = GpuKind.Discrete ∨ hw.has_discrete_gpu = true) →
      hw.ram_bytes = GiB 16 → hw.vram_bytes = GiB 24 →
      cpu_cap hw.physical_cores hw.logical_threads = Caste.Rig →
      (classify_caste hw).caste = Caste.User) := by
  constructor
  · by_cases h : hw.ram_bytes < ram_user_floor_bytes
    · rw [classify_caste_floor hw h]
      exact Nat.zero_le _
    · have h2 : ram_user_floor_bytes ≤ hw.ram_bytes := by omega
      rw [classify_caste_main hw h2]
      exact max_user_le_of_le _ _ (min_min_le_middle _ _ _) (ram_cap_pos _ h2)
  · intro hg hr hv hc
    have h2 : ram_user_floor_bytes ≤ hw.ram_bytes := by rw [hr]; decide
    have hb : base_caste hw = Caste.Rig := by
      unfold base_caste
      rw [if_pos hg, hv]
      decide
    rw [classify_caste_main hw h2, arc_base_of_discrete hw _ hg, hb, hr, hc]
    decide

/-- C3 witness: the theorem at the RAM-capped test machine. -/
theorem claim_c3_witness :
    (classify_caste hw_ram_capped).caste.toNat ≤
      (ram_cap hw_ram_capped.ram_bytes).toNat ∧
    (classify_caste hw_ram_capped).caste = Caste.User :=
  ⟨(claim_c3_ram_cap hw_ram_capped).1,
   (claim_c3_ram_cap hw_ram_capped).2 (Or.inl rfl) rfl rfl (by decide)⟩

/-- C4: without a discrete-GPU signal, an Apple-Silicon or unified-memory
machine takes its base caste purely from total RAM (64 GiB gives `Rig`,
32 GiB `Workstation`, 24 GiB `Developer`, else `User`); in particular 32 GiB
of unified memory with an unconstraining CPU classifies as `Workstation`. -/
theorem claim_c4_unified_ram_tiers (hw : HwFacts) :
    (¬(hw.gpu_kind = GpuKind.Discrete ∨ hw.has_discrete_gpu = true) →
      (hw.is_apple_silicon = true ∨ hw.gpu_kind = GpuKind.Unified) →
      base_caste hw =
        if GiB 64 ≤ hw.ram_bytes then Caste.Rig
        else if GiB 32 ≤ hw.ram_bytes then Caste.Workstation
        else if GiB 24 ≤ hw.ram_bytes then Caste.Developer
        else Caste.User) ∧
    (hw.gpu_kind = GpuKind.Unified → hw.has_discrete_gpu = false →
      hw.ram_bytes = GiB 32 →
      cpu_cap hw.physical_cores hw.logical_threads = Caste.Rig →
      (classify_caste hw).caste = Caste.Workstation) := by
  constructor
  · intro hd hu
    unfold base_caste
    rw [if_neg hd, if_pos hu]
  · intro hk hdg hr hc
    have h2 : ram_user_floor_bytes ≤ hw.ram_bytes := by rw [hr]; decide
    have hd : ¬(hw.gpu_kind = GpuKind.Discrete ∨ hw.has_discrete_gpu = true) := by
      simp [hk, hdg]
    have hb : base_caste hw = Caste.Workstation := by
      unfold base_caste
      rw [if_neg hd, if_pos (Or.inr hk), if_neg (by rw [hr]; decide),
        if_pos (by rw [hr])]
    rw [classify_caste_main hw h2, hb,
      arc_base_eq_of_dev_le hw Caste.Workstation (by decide), hr, hc]
    decide

/-- C4 witness: the theorem at the 32 GiB Apple-Silicon test machine. -/
theorem claim_c4_witness :
    (classify_caste hw_unified).caste = Caste.Workstation :=
  (claim_c4_unified_ram_tiers hw_unified).2 rfl rfl rfl (by decide)

/-- C5: the CPU cap prefers physical cores (below 4 cores caps at `Mini`,
below 6 at `User`, at or above 6 no cap) and falls back to logical threads
with doubled thresholds when physical cores are unavailable; the final caste
never exceeds the CPU cap except for the User-floor restoration; and a
strong machine with 2 cores / 4 threads classifies as `User`. -/
theorem claim_c5_cpu_cap (p t : Int) (hw : HwFacts) :
    (0 < p → p < 4 → cpu_cap p t = Caste.Mini) ∧
    (0 < p → 4 ≤ p → p < 6 → cpu_cap p t = Caste.User) ∧
    (6 ≤ p → cpu_cap p t = Caste.Rig) ∧
    (p ≤ 0 → 0 < t → t < 8 → cpu_cap p t = Caste.Mini) ∧
    (p ≤ 0 → 0 < t → 8 ≤ t → t < 12 → cpu_cap p t = Caste.User) ∧
    (p ≤ 0 → 12 ≤ t → cpu_cap p t = Caste.Rig) ∧
    ((classify_caste hw).caste.toNat ≤
      (max_caste (cpu_cap hw.physical_cores hw.logical_threads)
        Caste.User).toNat) ∧
    ((hw.gpu_kind = GpuKind.Discrete ∨ hw.has_discrete_gpu = true) →
      hw.ram_bytes = GiB 64 → hw.vram_bytes = GiB 24 →
      hw.physical_cores = 2 → hw.logical_threads = 4 →
      (classify_caste hw).caste = Caste.User) := by
  refine ⟨?_, ?_, ?_, ?_, ?_, ?_, ?_, ?_⟩
  · intro h1 h2
    dsimp only [cpu_cap]
    split_ifs <;> first | rfl | (exfalso; omega)
  · intro h1 h2 h3
    dsimp only [cpu_cap]
    split_ifs <;> first | rfl | (exfalso; omega)
  · intro h1
    dsimp only [cpu_cap]
    split_ifs <;> first | rfl | (exfalso; omega)
  · intro h1 h2 h3
    dsimp only [cpu_cap]
    split_ifs <;> first | rfl | (exfalso; omega)
  · intro h1 h2 h3 h4
    dsimp only [cpu_cap]
    split_ifs <;> first | rfl | (exfalso; omega)
  · intro h1 h2
    dsimp only [cpu_cap]
    split_ifs <;> first | rfl | (exfalso; omega)
  · by_cases hf : hw.ram_bytes < ram_user_floor_bytes
    · rw [classify_caste_floor hw hf]
      exact Nat.zero_le _
    · rw [classify_caste_main hw (by omega)]
      exact max_caste_mono _ _ _ _ (min_min_le_right _ _ _) (Nat.le_refl _)
  · intro hg hr hv hp ht
    have h2 : ram_user_floor_bytes ≤ hw.ram_bytes := by rw [hr]; decide
    have hb : base_caste hw = caste_from_vram hw.vram_bytes := by
      unfold base_caste
      rw [if_pos hg]
    rw [classify_caste_main hw h2, arc_base_of_discrete hw _ hg, hb, hv, hr,
      hp, ht]
    decide

/-- C5 witness: the theorem at the CPU-capped test machine. -/
theorem claim_c5_witness :
    cpu_cap 2 4 = Caste.Mini ∧
    (classify_caste hw_cpu_capped).caste = Caste.User :=
  ⟨(claim_c5_cpu_cap 2 4 hw_cpu_capped).1 (by decide) (by decide),
   (claim_c5_cpu_cap 2 4 hw_cpu_capped).2.2.2.2.2.2.2 (Or.inl rfl) rfl rfl
     rfl rfl⟩

/-- C6: increasing `vram_bytes` with every other field fixed never decreases
the resulting caste in the `Mini < User < Developer < Workstation < Rig`
order. -/
theorem claim_c6_vram_monotone (hw : HwFacts) (v1 v2 : Nat) (h : v1 ≤ v2) :
    (classify_caste { hw with vram_bytes := v1 }).caste.toNat ≤
    (classify_caste { hw with vram_bytes := v2 }).caste.toNat := by
  by_cases hf : hw.ram_bytes < ram_user_floor_bytes
  · rw [classify_caste_floor { hw with vram_bytes := v1 } hf,
      classify_caste_floor { hw with vram_bytes := v2 } hf]
  · have h2 : ram_user_floor_bytes ≤ hw.ram_bytes := by omega
    rw [classify_caste_main { hw with vram_bytes := v1 } h2,
      classify_caste_main { hw with vram_bytes := v2 } h2]
    rw [arc_base_vram hw v1, arc_base_vram hw v2]
    refine max_caste_mono _ _ _ _ ?_ (Nat.le_refl _)
    refine min_caste_mono _ _ _ _ ?_ (Nat.le_refl _)
    refine min_caste_mono _ _ _ _ ?_ (Nat.le_refl _)
    exact arc_base_mono hw _ _ (base_caste_vram_mono hw v1 v2 h)

/-- C6 witness: the theorem on the base test machine, from 2 GiB to 24 GiB
of VRAM. -/
theorem claim_c6_witness :
    GiB 2 ≤ GiB 24 ∧
    (classify_caste { hw_discrete_base with vram_bytes := GiB 2 }).caste.toNat ≤
      (classify_caste { hw_discrete_base with vram_bytes := GiB 24 }).caste.toNat :=
  ⟨by decide, claim_c6_vram_monotone hw_discrete_base (GiB 2) (GiB 24) (by decide)⟩

/-- C7: the Intel Arc-class bump fires only without a discrete-GPU signal;
when `is_intel_arc` holds and RAM is at least 16 GiB it raises the base
caste to the maximum of itself and `Developer` (so to at least `Developer`,
never lowering it); in every other case it leaves the base unchanged. -/
theorem claim_c7_arc_bump (hw : HwFacts) (b : Caste) :
    (hw.has_discrete_gpu = false → hw.gpu_kind ≠ GpuKind.Discrete →
      hw.is_intel_arc = true → GiB 16 ≤ hw.ram_bytes →
      arc_base hw b = max_caste b Caste.Developer ∧
      2 ≤ (arc_base hw b).toNat ∧ b.toNat ≤ (arc_base hw b).toNat) ∧
    ((hw.has_discrete_gpu = true ∨ hw.gpu_kind = GpuKind.Discrete ∨
        hw.is_intel_arc = false ∨ hw.ram_bytes < GiB 16) →
      arc_base hw b = b) := by
  constructor
  · intro h1 h2 h3 h4
    have he : arc_base hw b = max_caste b Caste.Developer := by
      unfold arc_base
      rw [if_pos ⟨h1, h2, h3⟩, if_pos h4]
    refine ⟨he, ?_, ?_⟩ <;> rw [he] <;> cases b <;> decide
  · intro h
    unfold arc_base
    rcases h with h | h | h | h
    · rw [if_neg]
      simp [h]
    · rw [if_neg]
      simp [h]
    · rw [if_neg]
      simp [h]
    · split_ifs with ho hi
      · exfalso
        omega
      · rfl
      · rfl

/-- C7 witness: the theorem at the Arc-class iGPU machine with 16 GiB RAM,
and with the Arc flag cleared. -/
theorem claim_c7_witness :
    arc_base hw_arc_igpu Caste.User = max_caste Caste.User Caste.Developer ∧
    arc_base { hw_arc_igpu with is_intel_arc := false } Caste.User =
      Caste.User :=
  ⟨((claim_c7_arc_bump hw_arc_igpu Caste.User).1 rfl (by decide) rfl
      (by decide)).1,
   (claim_c7_arc_bump { hw_arc_igpu with is_intel_arc := false }
      Caste.User).2 (Or.inr (Or.inr (Or.inl rfl)))⟩

/-- C8: `classify_caste` is a total function: on every fact record,
including all-zero or garbage combinations, it returns one of the five
`Caste` members. -/
theorem claim_c8_total (hw : HwFacts) :
    (classify_caste hw).caste = Caste.Mini ∨
    (classify_caste hw).caste = Caste.User ∨
    (classify_caste hw).caste = Caste.Developer ∨
    (classify_caste hw).caste = Caste.Workstation ∨
    (classify_caste hw).caste = Caste.Rig := by
  cases h : (classify_caste hw).caste <;> simp [h]

/-- C8 witness: the theorem at a garbage record (zero RAM, negative CPU
counts, VRAM set with GPU kind `None`, inconsistent discrete flag). -/
theorem claim_c8_witness :
    (classify_caste hw_garbage).caste = Caste.Mini ∨
    (classify_caste hw_garbage).caste = Caste.User ∨
    (classify_caste hw_garbage).caste = Caste.Developer ∨
    (classify_caste hw_garbage).caste = Caste.Workstation ∨
    (classify_caste hw_garbage).caste = Caste.Rig :=
  claim_c8_total hw_garbage

/-- C9: `caste_name` maps the five castes to exactly the strings "Mini",
"User", "Developer", "Workstation", "Rig" and is injective, so any reverse
lookup composed with it is the identity on the enum. -/
theorem claim_c9_names (a b : Caste) :
    caste_name Caste.Mini = "Mini" ∧
    caste_name Caste.User = "User" ∧
    caste_name Caste.Developer = "Developer" ∧
    caste_name Caste.Workstation = "Workstation" ∧
    caste_name Caste.Rig = "Rig" ∧
    (caste_name a = caste_name b → a = b) := by
  refine ⟨rfl, rfl, rfl, rfl, rfl, ?_⟩
  revert a b
  decide

/-- C9 witness: the theorem applied at `Developer`, `Developer`. -/
theorem claim_c9_witness :
    caste_name Caste.Mini = "Mini" ∧ Caste.Developer = Caste.Developer :=
  ⟨(claim_c9_names Caste.Mini Caste.Mini).1,
   (claim_c9_names Caste.Developer Caste.Developer).2.2.2.2.2 rfl⟩

/-- C10: without a discrete-GPU signal and below 24 GiB of RAM, the final
caste is the same whether `is_intel_arc` is set or not: the Arc bump is
always cancelled by the RAM ceiling there. -/
theorem claim_c10_arc_invisible_below_24 (hw : HwFacts)
    (hd : hw.has_discrete_gpu = false) (hk : hw.gpu_kind ≠ GpuKind.Discrete)
    (hr : hw.ram_bytes < GiB 24) :
    (classify_caste { hw with is_intel_arc := true }).caste =
    (classify_caste { hw with is_intel_arc := false }).caste := by
  by_cases hf : hw.ram_bytes < ram_user_floor_bytes
  · rw [classify_caste_floor { hw with is_intel_arc := true } hf,
      classify_caste_floor { hw with is_intel_arc := false } hf]
  · have h2 : ram_user_floor_bytes ≤ hw.ram_bytes := by omega
    have hnd : ¬(hw.gpu_kind = GpuKind.Discrete ∨ hw.has_discrete_gpu = true) := by
      simp [hd, hk]
    have hb1 : base_caste { hw with is_intel_arc := true } = Caste.User :=
      base_caste_user_of_low_ram _ hnd hr
    have hb2 : base_caste { hw with is_intel_arc := false } = Caste.User :=
      base_caste_user_of_low_ram _ hnd hr
    have ha2 : arc_base { hw with is_intel_arc := false } Caste.User =
        Caste.User := by
      unfold arc_base
      rw [if_neg]
      simp
    have hcap : (ram_cap hw.ram_bytes).toNat ≤ 1 := by
      unfold ram_cap
      split_ifs <;> decide
    rw [classify_caste_main { hw with is_intel_arc := true } h2,
      classify_caste_main { hw with is_intel_arc := false } h2, hb1, hb2, ha2]
    by_cases h16 : GiB 16 ≤ hw.ram_bytes
    · have ha1 : arc_base { hw with is_intel_arc := true } Caste.User =
          Caste.Developer := by
        unfold arc_base
        rw [if_pos ⟨hd, hk, rfl⟩, if_pos h16]
        decide
      rw [ha1, min_dev_eq_min_user _ hcap]
    · have ha1 : arc_base { hw with is_intel_arc := true } Caste.User =
          Caste.User := by
        unfold arc_base
        rw [if_pos ⟨hd, hk, rfl⟩, if_neg h16]
      rw [ha1]

/-- C10 witness: the theorem at an integrated-GPU machine with 16 GiB RAM. -/
theorem claim_c10_witness :
    (classify_caste { hw_integrated16 with is_intel_arc := true }).caste =
    (classify_caste { hw_integrated16 with is_intel_arc := false }).caste :=
  claim_c10_arc_invisible_below_24 hw_integrated16 rfl (by decide) (by decide)
